import Mathlib

/-!
Verification of the DOS emulation layer (dos.js): command grammar,
virtual file-buffer manager and channel interceptor.

The source is a single JavaScript closure `DOS(tty)`.  The embedding below
translates its state and operations:

* strings are `List Char` (`Str`);
* JavaScript numbers occurring here are either non-negative integers, `NaN`
  (produced by `Number()` on a non-numeric string) or `undefined`
  (an unassigned argument slot) — the type `JsVal`;
* the browser `localStorage` keyed by the `vfs/` prefix is an association
  list `Str × Str` (percent encoding/decoding round-trips and is collapsed,
  except for the observable coercion of the JavaScript value `null` to the
  string "null" when it is stored);
* the synchronous `XMLHttpRequest` fetch used by `open` for names missing
  from the store is an external collaborator, passed in as a function
  `Fetch := Str → Option Str` (`some body` for an HTTP 200/0 response,
  `none` when the resource is missing);
* a thrown `basic.RuntimeError(msg, code)` is `Fault.dos code msg`; a
  JavaScript `TypeError` (property access on `null`/`undefined`) is
  `Fault.typeError`.  Operations return their final state together with
  `Option Fault`; mutations performed before a throw persist in the
  returned state, as they do in the source.
-/

namespace DosEmu

abbrev Str := List Char

/-- The external bulk-content source behind `open`'s synchronous request:
`some body` models a 200/0 response carrying `responseText`, `none` models
any other status (the file stays unfetched; no exception). -/
abbrev Fetch := Str → Option Str

/-- A JavaScript numeric value as this program produces them: `undefined`
(argument slot never assigned), a non-negative integer, or `NaN`. -/
inductive JsVal where
  | undef : JsVal
  | num : Nat → JsVal
  | nan : JsVal
deriving DecidableEq, Repr

namespace JsVal

/-- JS `+` on the values reachable here (`undefined` and `NaN` both give `NaN`). -/
def add : JsVal → JsVal → JsVal
  | num a, num b => num (a + b)
  | _, _ => nan

/-- JS `*` on the values reachable here. -/
def mul : JsVal → JsVal → JsVal
  | num a, num b => num (a * b)
  | _, _ => nan

/-- `Math.floor(a / b)`.  A zero divisor is unreachable: every record length
stored in a buffer was normalized to at least 1 (or is `NaN`) by `open`. -/
def floorDiv : JsVal → JsVal → JsVal
  | num a, num b => if b = 0 then nan else num (a / b)
  | _, _ => nan

/-- JS `>` ; any comparison involving `NaN`/`undefined` is false. -/
def gt : JsVal → JsVal → Bool
  | num a, num b => decide (b < a)
  | _, _ => false

/-- JS `>=`. -/
def ge : JsVal → JsVal → Bool
  | num a, num b => decide (b ≤ a)
  | _, _ => false

/-- JS `<`. -/
def lt : JsVal → JsVal → Bool
  | num a, num b => decide (a < b)
  | _, _ => false

end JsVal

/-! ### Association-list primitives (the `buffers` object and `localStorage`) -/

/-- Property lookup on an object / `localStorage.getItem`. -/
def aget {α : Type} (k : Str) : List (Str × α) → Option α
  | [] => none
  | (k2, v) :: rest => if k2 = k then some v else aget k rest

/-- Property assignment / `localStorage.setItem`. -/
def aset {α : Type} (k : Str) (v : α) : List (Str × α) → List (Str × α)
  | [] => [(k, v)]
  | (k2, v2) :: rest => if k2 = k then (k, v) :: rest else (k2, v2) :: aset k v rest

/-- `delete obj[k]` / `localStorage.removeItem`. -/
def aerase {α : Type} (k : Str) : List (Str × α) → List (Str × α)
  | [] => []
  | (k2, v2) :: rest => if k2 = k then rest else (k2, v2) :: aerase k rest

/-! ### Character classes used by the regular expressions in the source -/

/-- JS `\s` restricted to the ASCII range the command channel carries. -/
def isWsJs (c : Char) : Bool :=
  c = ' ' || c = '\t' || c = '\n' || c = '\r' || c = '\x0b' || c = '\x0c'

/-- The filename character class `[\x20-\x2B\x2D-\x7E]` (printable ASCII
without the comma). -/
def isFnChar (c : Char) : Bool :=
  ('\x20' ≤ c && c ≤ '\x2B') || ('\x2D' ≤ c && c ≤ '\x7E')

/-- The class `[\x20-\x7E]`. -/
def isPrintable (c : Char) : Bool := '\x20' ≤ c && c ≤ '\x7E'

/-- The keyword-letter class `[VDSLRBACIO]`. -/
def isArgLetter (c : Char) : Bool :=
  c = 'V' || c = 'D' || c = 'S' || c = 'L' || c = 'R' ||
  c = 'B' || c = 'A' || c = 'C' || c = 'I' || c = 'O'

/-- `[0-9A-Fa-f]`. -/
def isHexChar (c : Char) : Bool :=
  c.isDigit || ('A' ≤ c && c ≤ 'F') || ('a' ≤ c && c ≤ 'f')

/-- Decimal value of a digit string. -/
def decimalValue (s : Str) : Nat :=
  s.foldl (fun acc c => acc * 10 + (c.toNat - 48)) 0

/-- JS `Number()` on the strings this program feeds it: the empty string
(a non-participating capture group) gives 0, whitespace is trimmed, an
optionally `+`-signed run of decimal digits gives its value, and anything
else — in particular the `$`-prefixed hexadecimal values admitted by the
argument regular expression — gives `NaN`. -/
def jsNumber (s : Str) : JsVal :=
  let t := (s.dropWhile isWsJs).reverse.dropWhile isWsJs |>.reverse
  let t := match t with
           | '+' :: r => r
           | _ => t
  if t = [] then .num 0
  else if t.all Char.isDigit then .num (decimalValue t)
  else .nan

/-! ### Faults -/

/-- A failure: a DOS error thrown through `doserror` (carrying the numeric
code and message from the `DOSErrors` table), or a JavaScript `TypeError`
from a property access on `null`/`undefined`. -/
inductive Fault where
  | dos : Nat → String → Fault
  | typeError : Fault
deriving DecidableEq, Repr

def rangeError : Fault := .dos 2 "Range error"
def endOfData : Fault := .dos 5 "End of data"
def fileNotFound : Fault := .dos 6 "File not found"
def invalidOption : Fault := .dos 11 "Invalid option"

/-! ### `parseArgs` — the keyword-argument grammar -/

/-- The fixed-shape argument record built by `parseArgs`: numeric letters
start at 0, the echo-flag letters start `undefined`. -/
structure Args where
  V : JsVal := .num 0
  D : JsVal := .num 0
  S : JsVal := .num 0
  L : JsVal := .num 0
  R : JsVal := .num 0
  B : JsVal := .num 0
  A : JsVal := .num 0
  C : JsVal := .undef
  I : JsVal := .undef
  O : JsVal := .undef
deriving DecidableEq, Repr

/-- `args[RegExp.$1] = ...`: assign the slot named by a matched letter. -/
def setArg (a : Args) (letter : Char) (v : JsVal) : Args :=
  if letter = 'V' then {a with V := v}
  else if letter = 'D' then {a with D := v}
  else if letter = 'S' then {a with S := v}
  else if letter = 'L' then {a with L := v}
  else if letter = 'R' then {a with R := v}
  else if letter = 'B' then {a with B := v}
  else if letter = 'A' then {a with A := v}
  else if letter = 'C' then {a with C := v}
  else if letter = 'I' then {a with I := v}
  else {a with O := v}

/-- One attempt of the loop condition
`str.match(/^,?\s*([VDSLRBACIO])\s*([0-9]+|\$[0-9A-Fa-f]+)?\s*([\x20-\x7E]*)/)`.
Returns `(letter, value string, $3)` on a match.  The optional comma and the
whitespace runs commit greedily (no viable backtrack exists: none of the
letters, digits or `$` is whitespace or a comma); the value alternation
tries a digit run first, then a `$`-prefixed hexadecimal run, then matches
empty (a non-participating group reads back as the empty string); `$3` is
the greedy printable run, so any non-printable tail beyond it is left
unconsumed and silently dropped when the caller replaces `str` by `$3`. -/
def matchArgToken (s : Str) : Option (Char × Str × Str) :=
  let s1 := match s with
            | ',' :: r => r
            | _ => s
  let s2 := s1.dropWhile isWsJs
  match s2 with
  | [] => none
  | c :: r =>
    if isArgLetter c then
      let r1 := r.dropWhile isWsJs
      let (v, r2) :=
        if r1.takeWhile Char.isDigit ≠ [] then
          (r1.takeWhile Char.isDigit, r1.dropWhile Char.isDigit)
        else
          match r1 with
          | '$' :: rh =>
            if rh.takeWhile isHexChar = [] then (([] : Str), r1)
            else ('$' :: rh.takeWhile isHexChar, rh.dropWhile isHexChar)
          | _ => (([] : Str), r1)
      let r3 := r2.dropWhile isWsJs
      some (c, v, r3.takeWhile isPrintable)
    else none

/-- The `while (str.match(...))` loop of `parseArgs`.  Each iteration checks
the matched letter against the allowed set, assigns
`args[$1] = Number($2)` and continues on `$3`; once no token matches, any
remaining text is an error.  The fuel only bounds the iteration count: every
iteration consumes at least the letter, so `s.length + 1` is enough. -/
def parseArgsLoop (opts : Str) : Nat → Str → Args → Except Fault Args
  | 0, s, args =>
    if s.length > 0 then .error invalidOption else .ok args
  | fuel + 1, s, args =>
    match matchArgToken s with
    | none => if s.length > 0 then .error invalidOption else .ok args
    | some (letter, v, rest) =>
      if opts.contains letter then
        parseArgsLoop opts fuel rest (setArg args letter (jsNumber v))
      else .error invalidOption

/-- `parseArgs(str, opts)`: crack a command tail such as ",S6,D1". -/
def parseArgs (s : Str) (opts : Str) : Except Fault Args :=
  parseArgsLoop opts (s.length + 1) s {}

/-! ### Session state -/

/-- One entry of the `buffers` object: an open file buffer. -/
structure Buffer where
  file : Option Str
  recordlength : JsVal
  recordnum : JsVal
  filepointer : JsVal
deriving DecidableEq, Repr

/-- The redirection mode: `""`, `"r"` or `"w"` in the source. -/
inductive Mode where
  | none : Mode
  | read : Mode
  | write : Mode
deriving DecidableEq, Repr

/-- The mutable closure state of `DOS(tty)`.  `activebuffer` holds the name
of the active buffer; the source holds a direct object reference, which for
every state arising through the operations below designates the buffer
stored under that name. -/
structure DosState where
  store : List (Str × Str)
  buffers : List (Str × Buffer)
  activebuffer : Option Str
  mode : Mode
  monico : Nat
  commandBuffer : Str
  commandMode : Bool
deriving DecidableEq, Repr

/-- The state at construction: no open buffers, no redirection, no tracing;
the durable store holds whatever the browser profile holds. -/
def initState (store : List (Str × Str)) : DosState :=
  { store := store, buffers := [], activebuffer := none, mode := .none,
    monico := 0, commandBuffer := [], commandMode := false }

def MON_I : Nat := 1
def MON_C : Nat := 2
def MON_O : Nat := 4

/-- `monico & ~bit` with JS 32-bit bitwise negation. -/
def jsAndNot (m bit : Nat) : Nat := m &&& (4294967295 ^^^ bit)

/-! ### Browser-side VFS -/

def vfs_get (s : DosState) (key : Str) : Option Str := aget key s.store

def vfs_set (s : DosState) (key : Str) (value : Str) : DosState :=
  {s with store := aset key value s.store}

def vfs_remove (s : DosState) (key : Str) : DosState :=
  {s with store := aerase key s.store}

/-- The string actually stored by `vfs_set(filename, buf.file)` when the
buffer content is the JavaScript value `null`: `encodeURIComponent`
coerces it to the four characters "null". -/
def jsStringOf : Option Str → Str
  | some content => content
  | none => ['n', 'u', 'l', 'l']

/-- `responseText.replace(/\r\n/g, "\r")` — collapse CRLF pairs, left to
right, non-overlapping. -/
def crlfToCr : Str → Str
  | '\r' :: '\n' :: rest => '\r' :: crlfToCr rest
  | c :: rest => c :: crlfToCr rest
  | [] => []

/-! ### Buffer-manager operations -/

/-- `open(filename, recordlength)`: record length 0 is normalized to 1
(sequential access); the content is taken from the VFS cache, else fetched
from the external source (and cached) when that succeeds, else left `null`;
a fresh buffer with both cursors at 0 replaces any buffer already open
under the name. -/
def openFile (fetch : Fetch) (s : DosState) (filename : Str)
    (recordlength0 : JsVal) : DosState :=
  let recordlength := if recordlength0 = .num 0 then .num 1 else recordlength0
  let (s, file) :=
    match vfs_get s filename with
    | some content => (s, some content)
    | none =>
      match fetch filename with
      | some body =>
        let text := crlfToCr body
        (vfs_set s filename text, some text)
      | none => (s, none)
  let buf : Buffer :=
    { file := file, recordlength := recordlength,
      recordnum := .num 0, filepointer := .num 0 }
  {s with buffers := aset filename buf s.buffers}

/-- `append(filename, recordlength)`: open, then seek to the end of the
file and recompute the record number.  The `hasOwnProperty` guard is dead
code after a completed `open` (it mirrors the source's check); reading
`.length` of a `null` file raises a `TypeError`. -/
def append (fetch : Fetch) (s : DosState) (filename : Str)
    (recordlength : JsVal) : DosState × Option Fault :=
  let s := openFile fetch s filename recordlength
  match aget filename s.buffers with
  | none => (s, some fileNotFound)
  | some buf =>
    match buf.file with
    | none => (s, some .typeError)
    | some content =>
      let fp := JsVal.num content.length
      let buf := {buf with filepointer := fp,
                           recordnum := fp.floorDiv buf.recordlength}
      ({s with buffers := aset filename buf s.buffers}, none)

/-- The named-buffer path of `close(filename)`: flush the in-memory content
to the VFS, drop the buffer, and clear the redirection when the closed
buffer was the active one. -/
def closeOne (s : DosState) (filename : Str) : DosState :=
  match aget filename s.buffers with
  | none => s
  | some buf =>
    let s := vfs_set s filename (jsStringOf buf.file)
    let s := {s with buffers := aerase filename s.buffers}
    if s.activebuffer = some filename then
      {s with activebuffer := none, mode := .none}
    else s

/-- `close(filename)`: a falsy (empty) filename closes every open buffer. -/
def close (s : DosState) (filename : Str) : DosState :=
  if filename = [] then (s.buffers.map Prod.fst).foldl closeOne s
  else closeOne s filename

/-- `read(filename, recordnum, bytenum)`: open the buffer if absent (record
length 0), fail with File not found when the content is `null`, else seek
`filepointer = recordlength * recordnum + bytenum` and enter read mode.
The re-lookup after `open` cannot miss; a miss would dereference
`undefined` in the source, hence the `TypeError` arm. -/
def read (fetch : Fetch) (s : DosState) (filename : Str)
    (recordnum bytenum : JsVal) : DosState × Option Fault :=
  let (s, obuf) :=
    match aget filename s.buffers with
    | none =>
      let s := openFile fetch s filename (.num 0)
      (s, aget filename s.buffers)
    | some buf => (s, some buf)
  match obuf with
  | none => (s, some .typeError)
  | some buf =>
    match buf.file with
    | none => (s, some fileNotFound)
    | some _ =>
      let buf := {buf with recordnum := recordnum,
                           filepointer := (buf.recordlength.mul recordnum).add bytenum}
      ({s with buffers := aset filename buf s.buffers,
               activebuffer := some filename, mode := .read}, none)

/-- `write(filename, recordnum, bytenum)`: the buffer must already be open;
`null` content is initialized to the empty string both in the buffer and in
the VFS; the file pointer is rebased to `recordlength * recordnum` only
when `recordlength > 1`, and the byte offset is added in either case; the
buffer becomes active in write mode. -/
def write (s : DosState) (filename : Str)
    (recordnum bytenum : JsVal) : DosState × Option Fault :=
  match aget filename s.buffers with
  | none => (s, some fileNotFound)
  | some buf =>
    let (s, buf) :=
      match buf.file with
      | none => (vfs_set s filename [], {buf with file := some []})
      | some _ => (s, buf)
    let buf := {buf with recordnum := recordnum}
    let buf :=
      if buf.recordlength.gt (.num 1) then
        {buf with filepointer := buf.recordlength.mul recordnum}
      else buf
    let buf := {buf with filepointer := buf.filepointer.add bytenum}
    ({s with buffers := aset filename buf s.buffers,
             activebuffer := some filename, mode := .write}, none)

/-- `position(filename, records)`: open the buffer if absent, then advance
both cursors by the record delta. -/
def position (fetch : Fetch) (s : DosState) (filename : Str)
    (records : JsVal) : DosState × Option Fault :=
  let (s, obuf) :=
    match aget filename s.buffers with
    | none =>
      let s := openFile fetch s filename (.num 0)
      (s, aget filename s.buffers)
    | some buf => (s, some buf)
  match obuf with
  | none => (s, some .typeError)
  | some buf =>
    let buf := {buf with recordnum := buf.recordnum.add records,
                         filepointer := buf.filepointer.add (buf.recordlength.mul records)}
    ({s with buffers := aset filename buf s.buffers}, none)

/-- `unlink(filename)` (the DELETE command). -/
def unlink (s : DosState) (filename : Str) : DosState × Option Fault :=
  match vfs_get s filename with
  | none => (s, some fileNotFound)
  | some _ => (vfs_remove s filename, none)

/-- `rename(oldname, newname)`. -/
def rename (s : DosState) (oldname newname : Str) : DosState × Option Fault :=
  match vfs_get s oldname with
  | none => (s, some fileNotFound)
  | some item => (vfs_set (vfs_remove s oldname) newname item, none)

/-! ### Command-form matching

Each command form in `executeCommand` is an anchored regular expression of
the shape `^KEYWORD\s*([\x20-\x2B\x2D-\x7E]+)(,[\x20-\x7E]*)?` (filename
commands), with variations for CLOSE (optional filename) and RENAME (two
filenames).  The functions below implement those matches including the one
place where backtracking is observable: the greedy `\s*` hands back a
trailing space — which is itself a filename character — when the character
after the whitespace run cannot start the filename. -/

/-- Strip a literal keyword prefix. -/
def stripPre : Str → Str → Option Str
  | [], s => some s
  | _ :: _, [] => none
  | k :: ks, c :: cs => if c = k then stripPre ks cs else none

/-- Split a string that starts with a filename character into the greedy
filename run `$1` and the optional comma group `$2` (the comma plus the
greedy printable run; unconsumed non-printable text is dropped — the
pattern is not right-anchored). -/
def splitFn (s : Str) : Str × Str :=
  let fn := s.takeWhile isFnChar
  let rest := s.dropWhile isFnChar
  match rest with
  | ',' :: r => (fn, ',' :: r.takeWhile isPrintable)
  | _ => (fn, [])

/-- Match `\s*([\x20-\x2B\x2D-\x7E]+)(,[\x20-\x7E]*)?` with the regex's
preference order: the longest whitespace skip that still lets the
mandatory filename group start. -/
def matchFnTail : Str → Option (Str × Str)
  | [] => none
  | c :: rest =>
    if isWsJs c then
      match matchFnTail rest with
      | some r => some r
      | none => if isFnChar c then some (splitFn (c :: rest)) else none
    else if isFnChar c then some (splitFn (c :: rest)) else none

/-- Match `\s*([\x20-\x2B\x2D-\x7E]+)?(,[\x20-\x7E]*)?` for CLOSE: both
groups are optional, so the maximal whitespace skip always succeeds and a
non-participating filename group reads back as the empty string. -/
def matchCloseTail (s : Str) : Str :=
  let s1 := s.dropWhile isWsJs
  match s1 with
  | c :: _ => if isFnChar c then (splitFn s1).1 else []
  | [] => []

/-- Match `\s*([\x20-\x2B\x2D-\x7E]+),` — the first half of the RENAME
form.  The filename class excludes the comma, so the greedy run is
followed by a comma or the whole attempt at this start position fails and
the whitespace skip backtracks. -/
def matchFn1Comma : Str → Option (Str × Str)
  | [] => none
  | c :: rest =>
    if isWsJs c then
      match matchFn1Comma rest with
      | some r => some r
      | none =>
        if isFnChar c then
          match (c :: rest).dropWhile isFnChar with
          | ',' :: r2 => some ((c :: rest).takeWhile isFnChar, r2)
          | _ => none
        else none
    else if isFnChar c then
      match (c :: rest).dropWhile isFnChar with
      | ',' :: r2 => some ((c :: rest).takeWhile isFnChar, r2)
      | _ => none
    else none

/-- Match the RENAME tail
`\s*(fn+),\s*(fn+)(,[\x20-\x7E]*)?`, yielding both filenames and `$3`. -/
def matchRenameTail (s : Str) : Option (Str × Str × Str) :=
  match matchFn1Comma s with
  | none => none
  | some (fn1, rest) =>
    match matchFnTail rest with
    | none => none
    | some (fn2, tail) => some (fn1, fn2, tail)

/-! ### Command dispatch -/

/-- The MON handler: each flag letter present (hence not `undefined`)
switches its trace bit on. -/
def cmdMON (s : DosState) (tail : Str) : DosState × Option Fault :=
  match parseArgs tail ['I', 'C', 'O'] with
  | .error f => (s, some f)
  | .ok args =>
    let m := s.monico
    let m := if args.I ≠ .undef then m ||| MON_I else m
    let m := if args.C ≠ .undef then m ||| MON_C else m
    let m := if args.O ≠ .undef then m ||| MON_O else m
    ({s with monico := m}, none)

/-- The NOMON handler: each flag letter present switches its bit off. -/
def cmdNOMON (s : DosState) (tail : Str) : DosState × Option Fault :=
  match parseArgs tail ['I', 'C', 'O'] with
  | .error f => (s, some f)
  | .ok args =>
    let m := s.monico
    let m := if args.I ≠ .undef then jsAndNot m MON_I else m
    let m := if args.C ≠ .undef then jsAndNot m MON_C else m
    let m := if args.O ≠ .undef then jsAndNot m MON_O else m
    ({s with monico := m}, none)

/-- `executeCommand(command)`: try the recognized forms in source order;
a line matching none of them is an Invalid option.  Terminal-side effects
(command tracing, the PR# firmware toggle) touch no session state and are
not modelled beyond their error paths.  Note that the APPEND branch calls
`parseArgs` with no allowed-letter set, so any keyword token after the
filename is rejected there. -/
def executeCommand (fetch : Fetch) (s : DosState) (cmd : Str) :
    DosState × Option Fault :=
  match stripPre ['M', 'O', 'N'] cmd with
  | some tail => cmdMON s (tail.takeWhile isPrintable)
  | none =>
  match stripPre ['N', 'O', 'M', 'O', 'N'] cmd with
  | some tail => cmdNOMON s (tail.takeWhile isPrintable)
  | none =>
  match (stripPre ['O', 'P', 'E', 'N'] cmd).bind matchFnTail with
  | some (filename, tail) =>
    (match parseArgs tail ['L'] with
     | .error f => (s, some f)
     | .ok args => (openFile fetch s filename args.L, none))
  | none =>
  match (stripPre ['A', 'P', 'P', 'E', 'N', 'D'] cmd).bind matchFnTail with
  | some (filename, tail) =>
    (match parseArgs tail [] with
     | .error f => (s, some f)
     | .ok args => append fetch s filename args.L)
  | none =>
  match stripPre ['C', 'L', 'O', 'S', 'E'] cmd with
  | some tail => (close s (matchCloseTail tail), none)
  | none =>
  match (stripPre ['P', 'O', 'S', 'I', 'T', 'I', 'O', 'N'] cmd).bind matchFnTail with
  | some (filename, tail) =>
    (match parseArgs tail ['R'] with
     | .error f => (s, some f)
     | .ok args => position fetch s filename args.R)
  | none =>
  match (stripPre ['R', 'E', 'A', 'D'] cmd).bind matchFnTail with
  | some (filename, tail) =>
    (match parseArgs tail ['R', 'B'] with
     | .error f => (s, some f)
     | .ok args => read fetch s filename args.R args.B)
  | none =>
  match (stripPre ['W', 'R', 'I', 'T', 'E'] cmd).bind matchFnTail with
  | some (filename, tail) =>
    (match parseArgs tail ['R', 'B'] with
     | .error f => (s, some f)
     | .ok args => write s filename args.R args.B)
  | none =>
  match (stripPre ['D', 'E', 'L', 'E', 'T', 'E'] cmd).bind matchFnTail with
  | some (filename, tail) =>
    (match parseArgs tail [] with
     | .error f => (s, some f)
     | .ok _ => unlink s filename)
  | none =>
  match (stripPre ['R', 'E', 'N', 'A', 'M', 'E'] cmd).bind matchRenameTail with
  | some (filename, filename2, tail) =>
    (match parseArgs tail [] with
     | .error f => (s, some f)
     | .ok _ => rename s filename filename2)
  | none =>
  match (stripPre ['P', 'R', '#'] cmd).bind matchFnTail with
  | some (slotStr, tail) =>
    let slot := jsNumber slotStr
    (match parseArgs tail [] with
     | .error f => (s, some f)
     | .ok _ =>
       if slot = .num 0 then (s, none)
       else if slot = .num 3 then (s, none)
       else (s, some rangeError))
  | none =>
  if cmd = [] then ({s with activebuffer := none, mode := .none}, none)
  else (s, some invalidOption)

/-! ### Channel interceptor -/

/-- Result of an intercepted character read: a character delivered from the
active buffer (`none` models the JavaScript value `undefined`, delivered
when the file pointer is `NaN`), or delegation to the original terminal
routine. -/
inductive CharRes where
  | redirected : Option Char → CharRes
  | passthrough : CharRes
deriving DecidableEq, Repr

/-- Result of an intercepted line read. -/
inductive LineRes where
  | redirected : Str → LineRes
  | passthrough : LineRes
deriving DecidableEq, Repr

/-- The zero-fill loop `while (buf.filepointer > buf.file.length)
buf.file += "\x00"`.  The fuel only bounds the iteration count; each pass
appends one character, so a pointer value of `n` needs at most `n`
passes (and a `NaN` pointer compares false at once). -/
def extendLoop : Nat → Str → JsVal → Str
  | 0, file, _ => file
  | fuel + 1, file, fp =>
    if fp.gt (.num file.length) then extendLoop fuel (file ++ ['\x00']) fp
    else file

/-- Run the zero-fill loop with sufficient fuel. -/
def extendFile (file : Str) (fp : JsVal) : Str :=
  match fp with
  | .num n => extendLoop (n + 1) file fp
  | _ => file

/-- `buf.file.substring(0, i)` — a `NaN` bound coerces to 0. -/
def jsSubstringTo (s : Str) (i : JsVal) : Str :=
  match i with
  | .num n => s.take n
  | _ => []

/-- `buf.file.substring(i)` — a `NaN` start coerces to 0. -/
def jsSubstringFrom (s : Str) (i : JsVal) : Str :=
  match i with
  | .num n => s.drop n
  | _ => s

/-- `data[i]` on a string: the character, or `undefined` past the end or at
a `NaN` index. -/
def jsIndex (s : Str) (i : JsVal) : Option Char :=
  match i with
  | .num n => s.get? n
  | _ => none

/-- `_dos_writeChar(c)`: command-mode accumulation and dispatch come first
(a carriage return fires the dispatcher with command-mode already cleared;
the accumulator is cleared only when the command does not throw); the
control character 0x04 enters command mode; in write mode the character is
spliced into the active buffer after zero-fill extension; otherwise the
character passes through to the terminal.  Dereferencing a `null` active
buffer or `null` content raises a `TypeError` exactly where the source
would. -/
def writeChar (fetch : Fetch) (s : DosState) (c : Char) :
    DosState × Option Fault :=
  if s.commandMode then
    if c = '\r' then
      let s2 := {s with commandMode := false}
      let r := executeCommand fetch s2 s2.commandBuffer
      match r.2 with
      | some fault => (r.1, some fault)
      | none => ({r.1 with commandBuffer := []}, none)
    else ({s with commandBuffer := s.commandBuffer ++ [c]}, none)
  else if c = '\x04' then
    ({s with commandBuffer := [], commandMode := true}, none)
  else if s.mode = .write then
    match s.activebuffer with
    | none => (s, some .typeError)
    | some name =>
      match aget name s.buffers with
      | none => (s, some .typeError)
      | some buf =>
        match buf.file with
        | none => (s, some .typeError)
        | some file =>
          let file := extendFile file buf.filepointer
          let file :=
            if buf.filepointer = .num file.length then file ++ [c]
            else jsSubstringTo file buf.filepointer ++ [c] ++
                 jsSubstringFrom file (buf.filepointer.add (.num 1))
          let buf := {buf with file := some file,
                               filepointer := buf.filepointer.add (.num 1)}
          ({s with buffers := aset name buf s.buffers}, none)
  else (s, none)

/-- `_dos_readChar(callback)`: in read mode, fail with End of data at or
past the end of content, else deliver the character at the file pointer
and advance it; in any other mode delegate to the terminal. -/
def readChar (s : DosState) : DosState × Except Fault CharRes :=
  if s.mode = .read then
    match s.activebuffer with
    | none => (s, .error .typeError)
    | some name =>
      match aget name s.buffers with
      | none => (s, .error .typeError)
      | some buf =>
        match buf.file with
        | none => (s, .error .typeError)
        | some file =>
          if buf.filepointer.ge (.num file.length) then (s, .error endOfData)
          else
            let character := jsIndex file buf.filepointer
            let buf := {buf with filepointer := buf.filepointer.add (.num 1)}
            ({s with buffers := aset name buf s.buffers},
             .ok (.redirected character))
  else (s, .ok .passthrough)

/-- The scan loop of `_dos_readLine`: walk the content from the file
pointer, collecting characters until a carriage return, line feed or NUL
(consumed, not collected) or the end of content.  Returns the collected
line and the number of characters consumed. -/
def readLineScan : Str → Str × Nat
  | [] => ([], 0)
  | c :: rest =>
    if c = '\r' || c = '\n' || c = '\x00' then ([], 1)
    else
      let (line, k) := readLineScan rest
      (c :: line, k + 1)

/-- `_dos_readLine(callback, prompt)`: in read mode, fail with End of data
at or past the end of content, else scan a line and advance the pointer
past it; a `NaN` pointer runs the loop zero times and is stored back
unchanged.  In any other mode delegate to the terminal. -/
def readLine (s : DosState) : DosState × Except Fault LineRes :=
  if s.mode = .read then
    match s.activebuffer with
    | none => (s, .error .typeError)
    | some name =>
      match aget name s.buffers with
      | none => (s, .error .typeError)
      | some buf =>
        match buf.file with
        | none => (s, .error .typeError)
        | some file =>
          if buf.filepointer.ge (.num file.length) then (s, .error endOfData)
          else
            match buf.filepointer with
            | .num n =>
              let r := readLineScan (file.drop n)
              let buf := {buf with filepointer := .num (n + r.2)}
              ({s with buffers := aset name buf s.buffers},
               .ok (.redirected r.1))
            | fp =>
              let buf := {buf with filepointer := fp}
              ({s with buffers := aset name buf s.buffers},
               .ok (.redirected []))
  else (s, .ok .passthrough)

/-- `dos.reset()`: drop every buffer (without flushing) and clear the
redirection. -/
def reset (s : DosState) : DosState :=
  {s with buffers := [], activebuffer := none, mode := .none}

/-! ### Reachability -/

/-- One externally triggered operation of the session. -/
inductive Step (fetch : Fetch) : DosState → DosState → Prop
  | writeChar (s : DosState) (c : Char) : Step fetch s (writeChar fetch s c).1
  | readChar (s : DosState) : Step fetch s (readChar s).1
  | readLine (s : DosState) : Step fetch s (readLine s).1
  | exec (s : DosState) (cmd : Str) : Step fetch s (executeCommand fetch s cmd).1
  | reset (s : DosState) : Step fetch s (reset s)

/-- States reachable from construction over any durable store. -/
inductive Reachable (fetch : Fetch) : DosState → Prop
  | init (store : List (Str × Str)) : Reachable fetch (initState store)
  | step {s s' : DosState} : Reachable fetch s → Step fetch s s' →
      Reachable fetch s'

/-- The active-buffer invariant: the active-buffer reference is null
exactly when the redirection mode is none (`Option` makes "at most one
active buffer" structural). -/
def Inv (s : DosState) : Prop := s.activebuffer = none ↔ s.mode = .none

/-! ### Basic lemmas about the embedding -/

theorem aget_aset {α : Type} (k : Str) (v : α) (l : List (Str × α)) :
    aget k (aset k v l) = some v := by
  induction l with
  | nil => simp [aget, aset]
  | cons p rest ih =>
    obtain ⟨k2, v2⟩ := p
    by_cases h : k2 = k <;> simp [aget, aset, h, ih]

theorem aset_self {α : Type} {k : Str} {v : α} {l : List (Str × α)}
    (h : aget k l = some v) : aset k v l = l := by
  induction l with
  | nil => simp [aget] at h
  | cons p rest ih =>
    obtain ⟨k2, v2⟩ := p
    by_cases hk : k2 = k
    · simp [aget, hk] at h
      simp [aset, hk, h]
    · simp [aget, hk] at h
      simp [aset, hk, ih h]

theorem extendLoop_closed : ∀ (fuel : Nat) (file : Str) (n : Nat),
    n - file.length ≤ fuel →
    extendLoop fuel file (.num n) = file ++ List.replicate (n - file.length) '\x00'
  | 0, file, n, h => by
    have h0 : n - file.length = 0 := Nat.le_zero.mp h
    simp [extendLoop, h0]
  | fuel + 1, file, n, h => by
    simp only [extendLoop, JsVal.gt]
    by_cases hgt : file.length < n
    · rw [if_pos (by simp [hgt])]
      rw [extendLoop_closed fuel (file ++ ['\x00']) n (by simp; omega)]
      have hrep : n - file.length = (n - (file.length + 1)) + 1 := by omega
      rw [hrep, List.replicate_succ]
      simp
    · rw [if_neg (by simp [hgt])]
      have h0 : n - file.length = 0 := by omega
      simp [h0]

theorem extendFile_closed (file : Str) (n : Nat) :
    extendFile file (.num n) = file ++ List.replicate (n - file.length) '\x00' :=
  extendLoop_closed (n + 1) file n (by omega)

/-! ### C1 and C2 — the character-write splice -/

/-- C1: for an open buffer in write mode whose file pointer lies strictly
beyond the content length, writing one character pads the content with NUL
characters up to the pointer and then appends the character, so the new
length is the old pointer plus one, every padding byte is NUL, and the
pointer advances by one. -/
theorem C1_write_zero_fill (fetch : Fetch) (s : DosState) (c : Char)
    (name : Str) (buf : Buffer) (content : Str) (n : Nat)
    (hcm : s.commandMode = false) (hc : c ≠ '\x04') (hm : s.mode = .write)
    (hab : s.activebuffer = some name) (hbuf : aget name s.buffers = some buf)
    (hfile : buf.file = some content) (hfp : buf.filepointer = .num n)
    (hgt : content.length < n) :
    (writeChar fetch s c).2 = none ∧
    ∃ buf2, aget name (writeChar fetch s c).1.buffers = some buf2 ∧
      buf2.file = some (content ++ List.replicate (n - content.length) '\x00' ++ [c]) ∧
      (content ++ List.replicate (n - content.length) '\x00' ++ [c]).length = n + 1 ∧
      (∀ i, content.length ≤ i → i < n →
        (content ++ List.replicate (n - content.length) '\x00' ++ [c])[i]? = some '\x00') ∧
      buf2.filepointer = .num (n + 1) := by
  have hext := extendFile_closed content n
  have hlen : (content ++ List.replicate (n - content.length) '\x00').length = n := by
    simp
    omega
  have hlen2 : (content ++ List.replicate (n - content.length) '\x00' ++ [c]).length = n + 1 := by
    simp
    omega
  simp only [writeChar, hcm, hc, hm, hab, hbuf, hfile, hfp, hext, hlen,
    Bool.false_eq_true, if_false, if_neg hc, if_pos rfl, JsVal.add]
  refine ⟨rfl, {buf with file := some ((content ++ List.replicate (n - content.length) '\x00') ++ [c]), filepointer := .num (n + 1)}, ?_, rfl, hlen2, ?_, rfl⟩
  · exact aget_aset _ _ _
  · intro i h1 h2
    rw [List.getElem?_append_left (by simp; omega),
        List.getElem?_append_right h1, List.getElem?_replicate,
        if_pos (by omega)]

/-- C2: for an open buffer in write mode whose file pointer lies strictly
below the content length, writing one character replaces exactly the
character at the pointer: the length and every other position are
unchanged. -/
theorem C2_write_splice (fetch : Fetch) (s : DosState) (c : Char)
    (name : Str) (buf : Buffer) (content : Str) (n : Nat)
    (hcm : s.commandMode = false) (hc : c ≠ '\x04') (hm : s.mode = .write)
    (hab : s.activebuffer = some name) (hbuf : aget name s.buffers = some buf)
    (hfile : buf.file = some content) (hfp : buf.filepointer = .num n)
    (hlt : n < content.length) :
    (writeChar fetch s c).2 = none ∧
    ∃ buf2, aget name (writeChar fetch s c).1.buffers = some buf2 ∧
      ∃ file2, buf2.file = some file2 ∧
        file2.length = content.length ∧
        file2[n]? = some c ∧
        (∀ i, i ≠ n → file2[i]? = content[i]?) := by
  have hext := extendFile_closed content n
  have h0 : n - content.length = 0 := by omega
  have hne : JsVal.num n ≠ JsVal.num content.length := by
    simp
    omega
  have ht : (content.take n).length = n := by
    simp
    omega
  simp only [writeChar, hcm, hc, hm, hab, hbuf, hfile, hfp, hext, h0,
    List.replicate_zero, List.append_nil, Bool.false_eq_true, if_false,
    if_neg hc, if_neg hne, jsSubstringTo, jsSubstringFrom, JsVal.add]
  refine ⟨rfl, _, aget_aset _ _ _, _, rfl, ?_, ?_, ?_⟩
  · simp
    omega
  · rw [List.getElem?_append_left (by simp [ht]),
        List.getElem?_append_right (Nat.le_of_eq ht), ht]
    simp
  · intro i hi
    rcases Nat.lt_or_ge i n with hlt2 | hge
    · rw [List.getElem?_append_left (by simp [ht]; omega),
          List.getElem?_append_left (by rw [ht]; exact hlt2)]
      exact List.getElem?_take_of_lt hlt2
    · have hgt2 : n < i := by omega
      rw [List.getElem?_append_right (by simp [ht]; omega)]
      have hlen3 : (content.take n ++ [c]).length = n + 1 := by simp [ht]
      rw [hlen3, List.getElem?_drop]
      congr 1
      omega

/-- A concrete write-mode session over the single open buffer "F" holding
"AB", used by the character-write witnesses. -/
def wSample (fp : JsVal) : DosState :=
  { store := [],
    buffers := [(['F'], { file := some ['A', 'B'], recordlength := .num 1,
                          recordnum := .num 0, filepointer := fp })],
    activebuffer := some ['F'], mode := .write, monico := 0,
    commandBuffer := [], commandMode := false }

theorem C1_write_zero_fill_witness :
    (writeChar (fun _ => none) (wSample (.num 5)) 'X').2 = none ∧
    ∃ buf2, aget ['F'] (writeChar (fun _ => none) (wSample (.num 5)) 'X').1.buffers = some buf2 ∧
      buf2.file = some ['A', 'B', '\x00', '\x00', '\x00', 'X'] ∧
      buf2.filepointer = .num 6 := by
  obtain ⟨h1, buf2, h2, h3, h4, h5, h6⟩ :=
    C1_write_zero_fill (fun _ => none) (wSample (.num 5)) 'X' ['F']
      { file := some ['A', 'B'], recordlength := .num 1,
        recordnum := .num 0, filepointer := .num 5 }
      ['A', 'B'] 5 rfl (by decide) rfl rfl rfl rfl rfl (by decide)
  refine ⟨h1, buf2, h2, ?_, h6⟩
  rw [h3]
  rfl

theorem C2_write_splice_witness :
    ∃ buf2, aget ['F'] (writeChar (fun _ => none) (wSample (.num 0)) 'X').1.buffers = some buf2 ∧
      ∃ file2, buf2.file = some file2 ∧ file2.length = 2 ∧
        file2[0]? = some 'X' ∧ file2[1]? = some 'B' := by
  obtain ⟨h1, buf2, h2, file2, h3, h4, h5, h6⟩ :=
    C2_write_splice (fun _ => none) (wSample (.num 0)) 'X' ['F']
      { file := some ['A', 'B'], recordlength := .num 1,
        recordnum := .num 0, filepointer := .num 0 }
      ['A', 'B'] 0 rfl (by decide) rfl rfl rfl rfl rfl (by decide)
  exact ⟨buf2, h2, file2, h3, h4, h5, h6 1 (by decide)⟩

/-! ### C4 — $-prefixed hexadecimal argument values -/

/-- C4: the value pattern of the argument grammar admits a $-prefixed
hexadecimal token, but `Number("$10")` is NaN, so the letter is bound to
NaN, not to 16: parsing the tail ",L$10" with L allowed succeeds and
yields L = NaN. -/
theorem C4_hex_value_is_nan :
    parseArgs [',', 'L', '$', '1', '0'] ['L'] = .ok { L := JsVal.nan } ∧
    JsVal.nan ≠ JsVal.num 16 :=
  ⟨rfl, by decide⟩

/-! ### C10 — OPEN on an already-open name -/

/-- C10: OPEN on a name whose buffer is already open replaces the buffer
with a freshly created one reloaded from the durable store, with file
pointer and record number 0, and writes nothing back to the store (the
previous buffer's unflushed content is discarded). -/
theorem C10_open_replaces_buffer (fetch : Fetch) (s : DosState)
    (filename : Str) (buf : Buffer) (content : Str) (rl : JsVal)
    (hbuf : aget filename s.buffers = some buf)
    (hstore : vfs_get s filename = some content) :
    aget filename (openFile fetch s filename rl).buffers =
      some { file := some content,
             recordlength := if rl = .num 0 then .num 1 else rl,
             recordnum := .num 0, filepointer := .num 0 } ∧
    (openFile fetch s filename rl).store = s.store := by
  constructor
  · simp only [openFile, hstore]
    exact aget_aset _ _ _
  · simp only [openFile, hstore]

/-- A session with "FOO" = "AB" durably stored and an open, modified
buffer for it. -/
def openSample : DosState :=
  { store := [(['F', 'O', 'O'], ['A', 'B'])],
    buffers := [(['F', 'O', 'O'],
      { file := some ['Z', 'Z', 'Z'], recordlength := .num 4,
        recordnum := .num 7, filepointer := .num 29 })],
    activebuffer := none, mode := .none, monico := 0,
    commandBuffer := [], commandMode := false }

theorem C10_open_replaces_buffer_witness :
    aget ['F', 'O', 'O'] (openFile (fun _ => none) openSample ['F', 'O', 'O'] (.num 5)).buffers =
      some { file := some ['A', 'B'], recordlength := .num 5,
             recordnum := .num 0, filepointer := .num 0 } ∧
    (openFile (fun _ => none) openSample ['F', 'O', 'O'] (.num 5)).store = openSample.store := by
  have h := C10_open_replaces_buffer (fun _ => none) openSample ['F', 'O', 'O']
    { file := some ['Z', 'Z', 'Z'], recordlength := .num 4,
      recordnum := .num 7, filepointer := .num 29 }
    ['A', 'B'] (.num 5) rfl rfl
  exact ⟨by rw [h.1]; rfl, h.2⟩

/-! ### C6 — OPEN then CLOSE round trip on the durable store -/

/-- C6 counterexample: for a name absent from the durable store (and not
found by the external fetch), OPEN followed by CLOSE does change the
store: the buffer content stays the JavaScript value null, and CLOSE
flushes it as the four-character string "null". -/
theorem C6_counterexample :
    vfs_get (initState []) ['F', 'O', 'O'] = none ∧
    vfs_get (close (openFile (fun _ => none) (initState []) ['F', 'O', 'O'] (.num 1))
        ['F', 'O', 'O']) ['F', 'O', 'O'] = some ['n', 'u', 'l', 'l'] :=
  ⟨by decide, by decide⟩

theorem closeOne_store (s : DosState) (fn : Str) :
    (closeOne s fn).store =
      match aget fn s.buffers with
      | none => s.store
      | some buf => aset fn (jsStringOf buf.file) s.store := by
  unfold closeOne
  cases aget fn s.buffers with
  | none => rfl
  | some buf =>
    simp only [vfs_set]
    split <;> rfl

/-- C6 amended: for every name present in the durable store and every
positive record length, OPEN followed immediately by CLOSE leaves the
durable store unchanged. -/
theorem C6_open_close_roundtrip (fetch : Fetch) (s : DosState)
    (filename : Str) (content : Str) (k : Nat)
    (hne : filename ≠ []) (hstore : vfs_get s filename = some content)
    (hk : 0 < k) :
    (close (openFile fetch s filename (.num k)) filename).store = s.store := by
  rw [close, if_neg hne, closeOne_store]
  have hs : (openFile fetch s filename (.num k)).store = s.store := by
    simp only [openFile, hstore]
  have hb : aget filename (openFile fetch s filename (.num k)).buffers =
      some { file := some content, recordlength := if (JsVal.num k) = .num 0 then .num 1 else .num k,
             recordnum := .num 0, filepointer := .num 0 } := by
    simp only [openFile, hstore]
    exact aget_aset _ _ _
  rw [hb, hs]
  exact aset_self hstore

theorem C6_open_close_roundtrip_witness :
    (close (openFile (fun _ => none) (initState [(['F', 'O', 'O'], ['A', 'B'])])
        ['F', 'O', 'O'] (.num 1)) ['F', 'O', 'O']).store =
      [(['F', 'O', 'O'], ['A', 'B'])] :=
  C6_open_close_roundtrip (fun _ => none) (initState [(['F', 'O', 'O'], ['A', 'B'])])
    ['F', 'O', 'O'] ['A', 'B'] 1 (by decide) rfl (by decide)

/-! ### C5 — the WRITE command -/

/-- C5: WRITE on a name with no open buffer fails with File not found
(code 6) with the state unchanged; WRITE on an open buffer sets its record
number to R, rebases the file pointer to recordLength * R when
recordLength > 1 and keeps the prior pointer otherwise, adds the byte
offset B, and makes the buffer active in write mode. -/
theorem C5_write_seek (s : DosState) (filename : Str) (R B : JsVal) :
    (aget filename s.buffers = none →
      write s filename R B = (s, some (Fault.dos 6 "File not found"))) ∧
    (∀ buf, aget filename s.buffers = some buf →
      ∃ buf2, aget filename (write s filename R B).1.buffers = some buf2 ∧
        buf2.recordnum = R ∧
        buf2.filepointer =
          (if buf.recordlength.gt (.num 1) then buf.recordlength.mul R
           else buf.filepointer).add B ∧
        (write s filename R B).1.mode = .write ∧
        (write s filename R B).1.activebuffer = some filename ∧
        (write s filename R B).2 = none) := by
  constructor
  · intro h
    simp [write, h, fileNotFound]
  · intro buf h
    cases hf : buf.file with
    | none =>
      by_cases hgt : buf.recordlength.gt (.num 1) = true <;>
        simp only [write, h, hf, hgt, if_true, Bool.false_eq_true, if_false] <;>
        exact ⟨_, aget_aset _ _ _, by trivial, by trivial, by trivial, by trivial, by trivial⟩
    | some content =>
      by_cases hgt : buf.recordlength.gt (.num 1) = true <;>
        simp only [write, h, hf, hgt, if_true, Bool.false_eq_true, if_false] <;>
        exact ⟨_, aget_aset _ _ _, by trivial, by trivial, by trivial, by trivial, by trivial⟩

theorem C5_write_seek_witness :
    write openSample ['B', 'A', 'R'] (.num 1) (.num 2) =
      (openSample, some (Fault.dos 6 "File not found")) ∧
    ∃ buf2, aget ['F', 'O', 'O'] (write openSample ['F', 'O', 'O'] (.num 1) (.num 2)).1.buffers = some buf2 ∧
      buf2.recordnum = .num 1 ∧ buf2.filepointer = .num 6 ∧
      (write openSample ['F', 'O', 'O'] (.num 1) (.num 2)).1.mode = .write := by
  have h1 := (C5_write_seek openSample ['B', 'A', 'R'] (.num 1) (.num 2)).1 (by decide)
  obtain ⟨buf2, hb, hr, hfp, hm, hab, hf⟩ :=
    (C5_write_seek openSample ['F', 'O', 'O'] (.num 1) (.num 2)).2
      { file := some ['Z', 'Z', 'Z'], recordlength := .num 4,
        recordnum := .num 7, filepointer := .num 29 } rfl
  refine ⟨h1, buf2, hb, hr, ?_, hm⟩
  rw [hfp]
  rfl

/-! ### C7 — the READ command -/

/-- Content of a freshly opened buffer: the cached store entry, else the
fetched (CRLF-collapsed) body, else null. -/
def openContent (fetch : Fetch) (s : DosState) (fn : Str) : Option Str :=
  match vfs_get s fn with
  | some content => some content
  | none =>
    match fetch fn with
    | some body => some (crlfToCr body)
    | none => none

theorem openFile_buffers_self (fetch : Fetch) (s : DosState) (fn : Str) (rl0 : JsVal) :
    aget fn (openFile fetch s fn rl0).buffers =
      some { file := openContent fetch s fn,
             recordlength := if rl0 = .num 0 then .num 1 else rl0,
             recordnum := .num 0, filepointer := .num 0 } := by
  unfold openFile openContent
  cases h : vfs_get s fn with
  | some c =>
    simp only [h]
    exact aget_aset _ _ _
  | none =>
    cases hf : fetch fn <;> simp only [h, hf] <;> exact aget_aset _ _ _

/-- C7: READ opens the buffer first when it is not open; it fails with
File not found (code 6) exactly when the backing content is absent — for
an open buffer, when its content is null; for an unopened name, when the
durable store misses and the external fetch finds nothing (in particular
for a name never opened and absent from the store) — and otherwise it
sets recordNumber = R, filePointer = recordLength * R + B and makes the
buffer active in read mode. -/
theorem C7_read_seek (fetch : Fetch) (s : DosState) (filename : Str) (R B : JsVal) :
    ((read fetch s filename R B).2 = some (Fault.dos 6 "File not found") ↔
      ((∃ buf, aget filename s.buffers = some buf ∧ buf.file = none) ∨
       (aget filename s.buffers = none ∧ vfs_get s filename = none ∧
        fetch filename = none))) ∧
    (∀ buf content, aget filename s.buffers = some buf → buf.file = some content →
      ∃ buf2, aget filename (read fetch s filename R B).1.buffers = some buf2 ∧
        buf2.recordnum = R ∧
        buf2.filepointer = (buf.recordlength.mul R).add B ∧
        buf2.file = some content ∧
        (read fetch s filename R B).1.mode = .read ∧
        (read fetch s filename R B).1.activebuffer = some filename ∧
        (read fetch s filename R B).2 = none) ∧
    (aget filename s.buffers = none →
      ¬(vfs_get s filename = none ∧ fetch filename = none) →
      ∃ buf2, aget filename (read fetch s filename R B).1.buffers = some buf2 ∧
        buf2.recordnum = R ∧
        buf2.filepointer = ((JsVal.num 1).mul R).add B ∧
        (read fetch s filename R B).1.mode = .read ∧
        (read fetch s filename R B).1.activebuffer = some filename ∧
        (read fetch s filename R B).2 = none) := by
  refine ⟨?_, ?_, ?_⟩
  · cases hb : aget filename s.buffers with
    | some buf =>
      cases hf : buf.file with
      | none => simp [read, hb, hf, fileNotFound]
      | some c => simp [read, hb, hf, fileNotFound]
    | none =>
      have hob := openFile_buffers_self fetch s filename (.num 0)
      cases hv : vfs_get s filename with
      | some c =>
        simp [read, hb, hob, openContent, hv, fileNotFound]
      | none =>
        cases hfe : fetch filename with
        | some body => simp [read, hb, hob, openContent, hv, hfe, fileNotFound]
        | none => simp [read, hb, hob, openContent, hv, hfe, fileNotFound]
  · intro buf content hb hf
    simp only [read, hb, hf]
    exact ⟨_, aget_aset _ _ _, by trivial, by trivial, by trivial, by trivial, by trivial, by trivial⟩
  · intro hb hnm
    have hob := openFile_buffers_self fetch s filename (.num 0)
    cases hv : vfs_get s filename with
    | some c =>
      simp only [read, hb, hob, openContent, hv]
      exact ⟨_, aget_aset _ _ _, by trivial, by trivial, by trivial, by trivial, by trivial⟩
    | none =>
      cases hfe : fetch filename with
      | some body =>
        simp only [read, hb, hob, openContent, hv, hfe]
        exact ⟨_, aget_aset _ _ _, by trivial, by trivial, by trivial, by trivial, by trivial⟩
      | none => exact absurd ⟨hv, hfe⟩ hnm

theorem C7_read_seek_witness :
    (read (fun _ => none) (initState []) ['M', 'I', 'S', 'S'] (.num 0) (.num 0)).2 =
      some (Fault.dos 6 "File not found") ∧
    ∃ buf2, aget ['F', 'O', 'O'] (read (fun _ => none) (initState [(['F', 'O', 'O'], ['A', 'B'])])
        ['F', 'O', 'O'] (.num 3) (.num 1)).1.buffers = some buf2 ∧
      buf2.recordnum = .num 3 ∧ buf2.filepointer = .num 4 ∧
      (read (fun _ => none) (initState [(['F', 'O', 'O'], ['A', 'B'])])
        ['F', 'O', 'O'] (.num 3) (.num 1)).1.mode = .read := by
  have h1 := (C7_read_seek (fun _ => none) (initState []) ['M', 'I', 'S', 'S'] (.num 0) (.num 0)).1.mpr
    (Or.inr ⟨rfl, rfl, rfl⟩)
  obtain ⟨buf2, hb, hr, hfp, hm, hab, hf⟩ :=
    (C7_read_seek (fun _ => none) (initState [(['F', 'O', 'O'], ['A', 'B'])])
      ['F', 'O', 'O'] (.num 3) (.num 1)).2.2 rfl (by decide)
  refine ⟨h1, buf2, hb, hr, ?_, hm⟩
  rw [hfp]
  rfl

/-! ### C8 — character and line reads at and before end of data -/

/-- C8: with the active mode read, `readChar` and `readLine` fail with End
of data (code 5) exactly when the file pointer is at or past the content
length, and such a failure leaves the whole session state unchanged; below
the end, `readChar` delivers the character at the file pointer and
advances it by one. -/
theorem C8_end_of_data (s : DosState) (name : Str) (buf : Buffer) (content : Str)
    (hm : s.mode = .read) (hab : s.activebuffer = some name)
    (hbuf : aget name s.buffers = some buf) (hfile : buf.file = some content) :
    ((readChar s).2 = .error (Fault.dos 5 "End of data") ↔
      buf.filepointer.ge (.num content.length) = true) ∧
    ((readLine s).2 = .error (Fault.dos 5 "End of data") ↔
      buf.filepointer.ge (.num content.length) = true) ∧
    (buf.filepointer.ge (.num content.length) = true →
      readChar s = (s, .error (Fault.dos 5 "End of data")) ∧
      readLine s = (s, .error (Fault.dos 5 "End of data"))) ∧
    (∀ n, buf.filepointer = .num n → n < content.length →
      (readChar s).2 = .ok (.redirected content[n]?) ∧
      (∃ c0, content[n]? = some c0) ∧
      aget name (readChar s).1.buffers = some {buf with filepointer := .num (n + 1)}) := by
  by_cases hge : buf.filepointer.ge (.num content.length) = true
  · refine ⟨?_, ?_, ?_, ?_⟩
    · simp [readChar, hm, hab, hbuf, hfile, hge, endOfData]
    · simp [readLine, hm, hab, hbuf, hfile, hge, endOfData]
    · intro _
      constructor
      · simp [readChar, hm, hab, hbuf, hfile, hge, endOfData]
      · simp [readLine, hm, hab, hbuf, hfile, hge, endOfData]
    · intro n hn hlt
      rw [hn] at hge
      simp [JsVal.ge] at hge
      omega
  · refine ⟨?_, ?_, ?_, ?_⟩
    · simp [readChar, hm, hab, hbuf, hfile, hge, endOfData]
    · simp only [readLine, hm, hab, hbuf, hfile, endOfData]
      rw [if_neg hge]
      cases hfp : buf.filepointer with
      | undef =>
        rw [hfp] at hge
        simp [hge]
      | num a =>
        rw [hfp] at hge
        simp [hge]
      | nan =>
        rw [hfp] at hge
        simp [hge]
    · intro h
      exact absurd h hge
    · intro n hn hlt
      rw [hn] at hge
      refine ⟨?_, ?_, ?_⟩
      · simp [readChar, hm, hab, hbuf, hfile, hge, hn, jsIndex, JsVal.add,
          List.get?_eq_getElem?]
      · rcases List.getElem?_eq_some_iff.mpr ⟨hlt, rfl⟩ with h2
        exact ⟨_, h2⟩
      · simp [readChar, hm, hab, hbuf, hfile, hge, hn, JsVal.add]
        exact aget_aset _ _ _

/-- A concrete read-mode session over the open buffer "F" holding "HI". -/
def rSample (fp : JsVal) : DosState :=
  { store := [],
    buffers := [(['F'], { file := some ['H', 'I'], recordlength := .num 1,
                          recordnum := .num 0, filepointer := fp })],
    activebuffer := some ['F'], mode := .read, monico := 0,
    commandBuffer := [], commandMode := false }

theorem C8_end_of_data_witness :
    readChar (rSample (.num 2)) = (rSample (.num 2), .error (Fault.dos 5 "End of data")) ∧
    readLine (rSample (.num 2)) = (rSample (.num 2), .error (Fault.dos 5 "End of data")) ∧
    (readChar (rSample (.num 0))).2 = .ok (.redirected (some 'H')) := by
  have h2 := (C8_end_of_data (rSample (.num 2)) ['F']
    { file := some ['H', 'I'], recordlength := .num 1,
      recordnum := .num 0, filepointer := .num 2 }
    ['H', 'I'] rfl rfl rfl rfl).2.2.1 (by decide)
  have h0 := ((C8_end_of_data (rSample (.num 0)) ['F']
    { file := some ['H', 'I'], recordlength := .num 1,
      recordnum := .num 0, filepointer := .num 0 }
    ['H', 'I'] rfl rfl rfl rfl).2.2.2 0 rfl (by decide)).1
  exact ⟨h2.1, h2.2, h0⟩

/-! ### C3 — the APPEND command and the L keyword -/

theorem fnChar_not_ws {c : Char} (h1 : isFnChar c = true) (h2 : c ≠ ' ') :
    isWsJs c = false := by
  cases hw : isWsJs c with
  | false => rfl
  | true =>
    exfalso
    simp only [isWsJs, Bool.or_eq_true, decide_eq_true_eq] at hw
    rcases hw with ((((h | h) | h) | h) | h) | h
    · exact h2 h
    all_goals subst h
    all_goals exact absurd h1 (by decide)

theorem digit_not_ws {c : Char} (h : c.isDigit = true) : isWsJs c = false := by
  cases hw : isWsJs c with
  | false => rfl
  | true =>
    exfalso
    simp only [isWsJs, Bool.or_eq_true, decide_eq_true_eq] at hw
    rcases hw with ((((hx | hx) | hx) | hx) | hx) | hx
    all_goals subst hx
    all_goals exact absurd h (by decide)

theorem digit_printable {c : Char} (h : c.isDigit = true) : isPrintable c = true := by
  simp only [Char.isDigit, Bool.and_eq_true, decide_eq_true_eq] at h
  simp only [isPrintable, Bool.and_eq_true, decide_eq_true_eq, Char.le_def]
  exact ⟨UInt32.le_trans (by decide) h.1, UInt32.le_trans h.2 (by decide)⟩

theorem takeWhile_append_all {p : Char → Bool} :
    ∀ (l1 l2 : Str), (∀ c ∈ l1, p c = true) →
      (l1 ++ l2).takeWhile p = l1 ++ l2.takeWhile p
  | [], l2, _ => rfl
  | c :: l1, l2, h => by
    have hc : p c = true := h c (by simp)
    simp only [List.cons_append, List.takeWhile_cons, hc, if_true]
    rw [takeWhile_append_all l1 l2 (fun x hx => h x (by simp [hx]))]

theorem dropWhile_append_all {p : Char → Bool} :
    ∀ (l1 l2 : Str), (∀ c ∈ l1, p c = true) →
      (l1 ++ l2).dropWhile p = l2.dropWhile p
  | [], l2, _ => rfl
  | c :: l1, l2, h => by
    have hc : p c = true := h c (by simp)
    simp only [List.cons_append, List.dropWhile_cons, hc, if_true]
    exact dropWhile_append_all l1 l2 (fun x hx => h x (by simp [hx]))

theorem takeWhile_all {p : Char → Bool} (l : Str) (h : ∀ c ∈ l, p c = true) :
    l.takeWhile p = l := by
  have := takeWhile_append_all (p := p) l [] h
  simpa using this

theorem dropWhile_all {p : Char → Bool} (l : Str) (h : ∀ c ∈ l, p c = true) :
    l.dropWhile p = [] := by
  have := dropWhile_append_all (p := p) l [] h
  simpa using this

theorem splitFn_valid_comma (fn rest : Str)
    (h2 : ∀ c ∈ fn, isFnChar c = true) :
    splitFn (fn ++ ',' :: rest) = (fn, ',' :: rest.takeWhile isPrintable) := by
  unfold splitFn
  rw [takeWhile_append_all fn (',' :: rest) h2,
      dropWhile_append_all fn (',' :: rest) h2,
      List.takeWhile_cons, List.dropWhile_cons,
      show isFnChar ',' = false from by decide]
  simp

theorem splitFn_valid_plain (fn : Str)
    (h2 : ∀ c ∈ fn, isFnChar c = true) :
    splitFn fn = (fn, []) := by
  unfold splitFn
  rw [takeWhile_all fn h2, dropWhile_all fn h2]

theorem matchFnTail_valid_comma (fn rest : Str) (h1 : fn ≠ [])
    (h2 : ∀ c ∈ fn, isFnChar c = true) (h3 : fn.head? ≠ some ' ') :
    matchFnTail (fn ++ ',' :: rest) = some (fn, ',' :: rest.takeWhile isPrintable) := by
  cases fn with
  | nil => exact absurd rfl h1
  | cons c fn2 =>
    have hc : isFnChar c = true := h2 c (by simp)
    have hcs : c ≠ ' ' := by
      intro hh
      exact h3 (by simp [hh])
    have hw := fnChar_not_ws hc hcs
    rw [List.cons_append, matchFnTail, hw]
    simp only [Bool.false_eq_true, if_false, hc, if_true]
    rw [← List.cons_append]
    exact congrArg some (splitFn_valid_comma (c :: fn2) rest h2)

theorem matchFnTail_valid_plain (fn : Str) (h1 : fn ≠ [])
    (h2 : ∀ c ∈ fn, isFnChar c = true) (h3 : fn.head? ≠ some ' ') :
    matchFnTail fn = some (fn, []) := by
  cases fn with
  | nil => exact absurd rfl h1
  | cons c fn2 =>
    have hc : isFnChar c = true := h2 c (by simp)
    have hcs : c ≠ ' ' := by
      intro hh
      exact h3 (by simp [hh])
    have hw := fnChar_not_ws hc hcs
    rw [matchFnTail, hw]
    simp only [Bool.false_eq_true, if_false, hc, if_true]
    exact congrArg some (splitFn_valid_plain (c :: fn2) h2)

theorem matchFnTail_space (xs : Str) (r : Str × Str)
    (h : matchFnTail xs = some r) : matchFnTail (' ' :: xs) = some r := by
  rw [matchFnTail]
  simp [show isWsJs ' ' = true from by decide, h]

theorem matchArgToken_L_digits (ds : Str) (hne : ds ≠ [])
    (hds : ∀ c ∈ ds, c.isDigit = true) :
    matchArgToken (',' :: 'L' :: ds) = some ('L', ds, []) := by
  cases ds with
  | nil => exact absurd rfl hne
  | cons d ds2 =>
    have hd : d.isDigit = true := hds d (by simp)
    have hdw := digit_not_ws hd
    have h1 : (('L' :: d :: ds2) : Str).dropWhile isWsJs = 'L' :: d :: ds2 := by
      rw [List.dropWhile_cons, show isWsJs 'L' = false from by decide]
      simp
    have h2 : ((d :: ds2) : Str).dropWhile isWsJs = d :: ds2 := by
      rw [List.dropWhile_cons, hdw]
      simp
    have h3 := takeWhile_all (p := Char.isDigit) (d :: ds2) hds
    have h4 := dropWhile_all (p := Char.isDigit) (d :: ds2) hds
    unfold matchArgToken
    simp only [h1, h2, h3, h4, show isArgLetter 'L' = true from by decide, if_true]
    simp

theorem parseArgs_L_not_allowed (ds : Str) (hne : ds ≠ [])
    (hds : ∀ c ∈ ds, c.isDigit = true) :
    parseArgs (',' :: 'L' :: ds) [] = .error invalidOption := by
  unfold parseArgs
  simp only [List.length_cons]
  simp only [parseArgsLoop, matchArgToken_L_digits ds hne hds]
  simp [List.contains]

/-- C3 counterexample: the APPEND branch of the dispatcher passes no
allowed-letter set to the argument parser, so the command APPEND FOO,L5 —
with FOO present in the durable store — fails with Invalid option
(code 11) instead of opening the buffer, and the session state is
unchanged. -/
theorem C3_counterexample :
    executeCommand (fun _ => none) (initState [(['F', 'O', 'O'], ['A', 'B'])])
      ['A', 'P', 'P', 'E', 'N', 'D', ' ', 'F', 'O', 'O', ',', 'L', '5'] =
      (initState [(['F', 'O', 'O'], ['A', 'B'])], some (Fault.dos 11 "Invalid option")) := by
  decide

/-- C3 amended: the dispatcher does not accept the L keyword for APPEND:
APPEND <filename>,L<digits> fails with Invalid option (code 11) and
changes nothing, because the APPEND branch passes no allowed-letter set to
the argument parser.  APPEND <filename> with no argument tail opens the
buffer with record length 1 (the default L = 0, normalized), then sets
the file pointer to the content length and the record number to
floor(filePointer / recordLength). -/
theorem C3_append_rejects_L (fetch : Fetch) (s : DosState) (fn ds content : Str)
    (hfn1 : fn ≠ []) (hfn2 : ∀ c ∈ fn, isFnChar c = true) (hfn3 : fn.head? ≠ some ' ')
    (hds1 : ds ≠ []) (hds2 : ∀ c ∈ ds, c.isDigit = true)
    (hstore : vfs_get s fn = some content) :
    executeCommand fetch s (['A', 'P', 'P', 'E', 'N', 'D', ' '] ++ fn ++ ',' :: 'L' :: ds) =
      (s, some (Fault.dos 11 "Invalid option")) ∧
    ∃ buf2, aget fn (executeCommand fetch s (['A', 'P', 'P', 'E', 'N', 'D', ' '] ++ fn)).1.buffers = some buf2 ∧
      buf2.recordlength = .num 1 ∧
      buf2.filepointer = .num content.length ∧
      buf2.recordnum = .num content.length ∧
      (executeCommand fetch s (['A', 'P', 'P', 'E', 'N', 'D', ' '] ++ fn)).2 = none := by
  have hP : ∀ c ∈ 'L' :: ds, isPrintable c = true := by
    intro c hc
    rcases List.mem_cons.mp hc with h | h
    · subst h
      decide
    · exact digit_printable (hds2 c h)
  constructor
  · have hm1 : stripPre ['M', 'O', 'N']
        (['A', 'P', 'P', 'E', 'N', 'D', ' '] ++ fn ++ ',' :: 'L' :: ds) = none := rfl
    have hm2 : stripPre ['N', 'O', 'M', 'O', 'N']
        (['A', 'P', 'P', 'E', 'N', 'D', ' '] ++ fn ++ ',' :: 'L' :: ds) = none := rfl
    have hm3 : stripPre ['O', 'P', 'E', 'N']
        (['A', 'P', 'P', 'E', 'N', 'D', ' '] ++ fn ++ ',' :: 'L' :: ds) = none := rfl
    have happ : stripPre ['A', 'P', 'P', 'E', 'N', 'D']
        (['A', 'P', 'P', 'E', 'N', 'D', ' '] ++ fn ++ ',' :: 'L' :: ds) =
        some (' ' :: (fn ++ ',' :: 'L' :: ds)) := rfl
    have htail : matchFnTail (' ' :: (fn ++ ',' :: 'L' :: ds)) =
        some (fn, ',' :: 'L' :: ds) := by
      apply matchFnTail_space
      rw [matchFnTail_valid_comma fn ('L' :: ds) hfn1 hfn2 hfn3,
          takeWhile_all _ hP]
    simp only [executeCommand, hm1, hm2, hm3, happ, Option.bind, htail,
      parseArgs_L_not_allowed ds hds1 hds2, invalidOption]
  · have hm1 : stripPre ['M', 'O', 'N'] (['A', 'P', 'P', 'E', 'N', 'D', ' '] ++ fn) = none := rfl
    have hm2 : stripPre ['N', 'O', 'M', 'O', 'N'] (['A', 'P', 'P', 'E', 'N', 'D', ' '] ++ fn) = none := rfl
    have hm3 : stripPre ['O', 'P', 'E', 'N'] (['A', 'P', 'P', 'E', 'N', 'D', ' '] ++ fn) = none := rfl
    have happ : stripPre ['A', 'P', 'P', 'E', 'N', 'D'] (['A', 'P', 'P', 'E', 'N', 'D', ' '] ++ fn) =
        some (' ' :: fn) := rfl
    have htail2 : matchFnTail (' ' :: fn) = some (fn, []) :=
      matchFnTail_space _ _ (matchFnTail_valid_plain fn hfn1 hfn2 hfn3)
    have hargs : parseArgs [] ([] : Str) = .ok {} := rfl
    have hob : aget fn (openFile fetch s fn (JsVal.num 0)).buffers =
        some { file := some content, recordlength := .num 1,
               recordnum := .num 0, filepointer := .num 0 } := by
      rw [openFile_buffers_self]
      simp [openContent, hstore]
    simp only [executeCommand, hm1, hm2, hm3, happ, Option.bind, htail2, hargs,
      append, hob]
    refine ⟨_, aget_aset _ _ _, by trivial, by trivial, ?_, by trivial⟩
    simp [JsVal.floorDiv]

theorem C3_append_rejects_L_witness :
    executeCommand (fun _ => none) (initState [(['F', 'O', 'O'], ['A', 'B'])])
      (['A', 'P', 'P', 'E', 'N', 'D', ' '] ++ ['F', 'O', 'O'] ++ ',' :: 'L' :: ['5']) =
      (initState [(['F', 'O', 'O'], ['A', 'B'])], some (Fault.dos 11 "Invalid option")) ∧
    ∃ buf2, aget ['F', 'O', 'O'] (executeCommand (fun _ => none)
        (initState [(['F', 'O', 'O'], ['A', 'B'])])
        (['A', 'P', 'P', 'E', 'N', 'D', ' '] ++ ['F', 'O', 'O'])).1.buffers = some buf2 ∧
      buf2.recordlength = .num 1 ∧ buf2.filepointer = .num 2 ∧ buf2.recordnum = .num 2 := by
  obtain ⟨h1, buf2, hb, hrl, hfp, hrn, hf⟩ :=
    C3_append_rejects_L (fun _ => none) (initState [(['F', 'O', 'O'], ['A', 'B'])])
      ['F', 'O', 'O'] ['5'] ['A', 'B'] (by decide) (by decide) (by decide)
      (by decide) (by decide) rfl
  exact ⟨h1, buf2, hb, hrl, hfp, hrn⟩

/-! ### C9 — the active-buffer / mode invariant -/

theorem inv_congr {s s2 : DosState} (h1 : s2.activebuffer = s.activebuffer)
    (h2 : s2.mode = s.mode) (h : Inv s) : Inv s2 := by
  rw [Inv, h1, h2]
  exact h

theorem openFile_cursor (fetch : Fetch) (s : DosState) (fn : Str) (rl : JsVal) :
    (openFile fetch s fn rl).activebuffer = s.activebuffer ∧
    (openFile fetch s fn rl).mode = s.mode := by
  unfold openFile
  cases h : vfs_get s fn with
  | some c => exact ⟨rfl, rfl⟩
  | none => cases hf : fetch fn <;> exact ⟨rfl, rfl⟩

theorem openFile_inv (fetch : Fetch) (s : DosState) (fn : Str) (rl : JsVal)
    (h : Inv s) : Inv (openFile fetch s fn rl) :=
  inv_congr (openFile_cursor fetch s fn rl).1 (openFile_cursor fetch s fn rl).2 h

theorem append_inv (fetch : Fetch) (s : DosState) (fn : Str) (rl : JsVal)
    (h : Inv s) : Inv (append fetch s fn rl).1 := by
  have ho := openFile_inv fetch s fn rl h
  cases hb : aget fn (openFile fetch s fn rl).buffers with
  | none =>
    simp only [append, hb]
    exact ho
  | some buf =>
    cases hf : buf.file with
    | none =>
      simp only [append, hb, hf]
      exact ho
    | some content =>
      simp only [append, hb, hf]
      exact inv_congr rfl rfl ho

theorem closeOne_inv (s : DosState) (fn : Str) (h : Inv s) : Inv (closeOne s fn) := by
  simp only [closeOne]
  repeat' split
  all_goals first
    | exact ⟨fun _ => rfl, fun _ => rfl⟩
    | exact inv_congr rfl rfl h
    | exact h

theorem foldl_closeOne_inv :
    ∀ (names : List Str) (s : DosState), Inv s → Inv (names.foldl closeOne s)
  | [], _, h => h
  | n :: ns, s, h => foldl_closeOne_inv ns (closeOne s n) (closeOne_inv s n h)

theorem close_inv (s : DosState) (fn : Str) (h : Inv s) : Inv (close s fn) := by
  unfold close
  split
  · exact foldl_closeOne_inv _ s h
  · exact closeOne_inv s fn h

theorem read_inv (fetch : Fetch) (s : DosState) (fn : Str) (R B : JsVal)
    (h : Inv s) : Inv (read fetch s fn R B).1 := by
  cases hb : aget fn s.buffers with
  | some buf =>
    cases hf : buf.file with
    | none =>
      simp only [read, hb, hf]
      exact h
    | some content =>
      simp only [read, hb, hf]
      exact ⟨nofun, nofun⟩
  | none =>
    have ho := openFile_inv fetch s fn (.num 0) h
    cases hc : openContent fetch s fn with
    | none =>
      simp only [read, hb, openFile_buffers_self, hc]
      exact ho
    | some content =>
      simp only [read, hb, openFile_buffers_self, hc]
      exact ⟨nofun, nofun⟩

theorem write_inv (s : DosState) (fn : Str) (R B : JsVal) (h : Inv s) :
    Inv (write s fn R B).1 := by
  unfold write
  cases hb : aget fn s.buffers with
  | none => exact h
  | some buf =>
    cases hf : buf.file with
    | none => exact ⟨nofun, nofun⟩
    | some content => exact ⟨nofun, nofun⟩

theorem position_inv (fetch : Fetch) (s : DosState) (fn : Str) (R : JsVal)
    (h : Inv s) : Inv (position fetch s fn R).1 := by
  cases hb : aget fn s.buffers with
  | some buf =>
    simp only [position, hb]
    exact inv_congr rfl rfl h
  | none =>
    have ho := openFile_inv fetch s fn (.num 0) h
    simp only [position, hb, openFile_buffers_self]
    exact inv_congr rfl rfl ho

theorem unlink_inv (s : DosState) (fn : Str) (h : Inv s) : Inv (unlink s fn).1 := by
  unfold unlink
  cases hv : vfs_get s fn with
  | none => exact h
  | some item => exact inv_congr rfl rfl h

theorem rename_inv (s : DosState) (fn fn2 : Str) (h : Inv s) :
    Inv (rename s fn fn2).1 := by
  unfold rename
  cases hv : vfs_get s fn with
  | none => exact h
  | some item => exact inv_congr rfl rfl h

theorem cmdMON_inv (s : DosState) (tail : Str) (h : Inv s) : Inv (cmdMON s tail).1 := by
  unfold cmdMON
  cases hp : parseArgs tail ['I', 'C', 'O'] with
  | error f => exact h
  | ok args => exact inv_congr rfl rfl h

theorem cmdNOMON_inv (s : DosState) (tail : Str) (h : Inv s) :
    Inv (cmdNOMON s tail).1 := by
  unfold cmdNOMON
  cases hp : parseArgs tail ['I', 'C', 'O'] with
  | error f => exact h
  | ok args => exact inv_congr rfl rfl h

theorem executeCommand_inv (fetch : Fetch) (s : DosState) (cmd : Str)
    (h : Inv s) : Inv (executeCommand fetch s cmd).1 := by
  simp only [executeCommand]
  repeat' split
  all_goals first
    | exact cmdMON_inv _ _ h
    | exact cmdNOMON_inv _ _ h
    | exact openFile_inv _ _ _ _ h
    | exact append_inv _ _ _ _ h
    | exact close_inv _ _ h
    | exact position_inv _ _ _ _ h
    | exact read_inv _ _ _ _ _ h
    | exact write_inv _ _ _ _ h
    | exact unlink_inv _ _ h
    | exact rename_inv _ _ _ h
    | exact ⟨fun _ => rfl, fun _ => rfl⟩
    | exact h

theorem writeChar_inv (fetch : Fetch) (s : DosState) (c : Char) (h : Inv s) :
    Inv (writeChar fetch s c).1 := by
  simp only [writeChar]
  repeat' split
  all_goals first
    | exact executeCommand_inv _ _ _ (inv_congr rfl rfl h)
    | exact inv_congr rfl rfl (executeCommand_inv _ _ _ (inv_congr rfl rfl h))
    | exact inv_congr rfl rfl h
    | exact h

theorem readChar_inv (s : DosState) (h : Inv s) : Inv (readChar s).1 := by
  simp only [readChar]
  repeat' split
  all_goals first
    | exact inv_congr rfl rfl h
    | exact h

theorem readLine_inv (s : DosState) (h : Inv s) : Inv (readLine s).1 := by
  simp only [readLine]
  repeat' split
  all_goals first
    | exact inv_congr rfl rfl h
    | exact h

theorem reset_inv (s : DosState) : Inv (reset s) := ⟨fun _ => rfl, fun _ => rfl⟩

/-- C9: in every session state reachable from construction by any sequence
of character I/O operations, command dispatches and resets, there is at
most one active buffer (the reference is a single `Option`), and it is
null exactly when the redirection mode is none; every operation — CLOSE,
the empty command and reset included — preserves this. -/
theorem C9_active_mode_invariant (fetch : Fetch) (s : DosState)
    (h : Reachable fetch s) : s.activebuffer = none ↔ s.mode = .none := by
  induction h with
  | init store => exact ⟨fun _ => rfl, fun _ => rfl⟩
  | step hr hstep ih =>
    cases hstep with
    | writeChar c => exact writeChar_inv fetch _ c ih
    | readChar => exact readChar_inv _ ih
    | readLine => exact readLine_inv _ ih
    | exec cmd => exact executeCommand_inv fetch _ cmd ih
    | reset => exact reset_inv _

theorem C9_active_mode_invariant_witness :
    (initState []).activebuffer = none ↔ (initState []).mode = .none :=
  C9_active_mode_invariant (fun _ => none) (initState []) (Reachable.init [])

end DosEmu
